import Mathlib

/-!
Verification of the restaurants-nearby core pipeline: CSV ingestion
(fetchMichelin.ts, parseCSV / parseCSVLine), the Haversine distance
engine (calculateDistance), the proximity filter
(filterNearbyMichelinRestaurants), and the remote-result merge and
review normalization steps (fetchPlaces.ts, fetchNearbyRestaurants /
mapPlace).  JavaScript numbers appearing in parsed CSV records are
modelled exactly: a value produced by parseFloat is a rational, or an
infinity (the literal Infinity), and NaN is represented by absence of
an assignment, matching the guarded assignments in the source.  The
real-valued trigonometric distance computation is modelled over the
real numbers.
-/

namespace RN

/-- Result of a successful JavaScript numeric parse: either a finite
value (modelled exactly as a rational) or one of the two infinities
(the string literal Infinity with an optional sign).  NaN results are
modelled as `Option.none` at the use sites, since the source only
stores a parsed number after checking `!isNaN`. -/
inductive JSNum where
  | finite (q : ℚ)
  | posInf
  | negInf
deriving DecidableEq, Repr

/-- Digit list to natural number, most significant first. -/
def digitsToNat (ds : List Char) : ℕ :=
  ds.foldl (fun n c => n * 10 + (c.toNat - Char.toNat '0')) 0

/-- Model of the JavaScript String trim: drop whitespace from both
ends. -/
def jsTrim (s : String) : String :=
  ⟨((s.data.dropWhile Char.isWhitespace).reverse.dropWhile
      Char.isWhitespace).reverse⟩

/-- Splitter state of the JavaScript single-character String split. -/
def splitAux (sep : Char) : List Char → List Char → List String
  | [], acc => [⟨acc.reverse⟩]
  | c :: rest, acc =>
    if c = sep then ⟨acc.reverse⟩ :: splitAux sep rest []
    else splitAux sep rest (c :: acc)

/-- Model of the JavaScript String split on a one-character separator:
every separator occurrence ends a piece, with no merging of adjacent
separators. -/
def splitOnChar (sep : Char) (s : String) : List String :=
  splitAux sep s.data []

/-- Model of JavaScript parseFloat: skip leading whitespace, optional
sign, then the longest prefix that is an Infinity literal or a decimal
literal (digits, optional fraction, optional exponent); `none` models
a NaN result (no valid numeric prefix). -/
def parseFloatJS (s : String) : Option JSNum :=
  let cs0 := s.data.dropWhile Char.isWhitespace
  let sign : Bool := match cs0 with
    | '-' :: _ => true
    | _ => false
  let cs := match cs0 with
    | '-' :: rest => rest
    | '+' :: rest => rest
    | _ => cs0
  if cs.take 8 = "Infinity".data then
    some (if sign then JSNum.negInf else JSNum.posInf)
  else
    let intDigits := cs.takeWhile Char.isDigit
    let rest1 := cs.dropWhile Char.isDigit
    let fracDigits := match rest1 with
      | '.' :: r => r.takeWhile Char.isDigit
      | _ => []
    let rest2 := match rest1 with
      | '.' :: r => r.dropWhile Char.isDigit
      | _ => rest1
    if intDigits = [] ∧ fracDigits = [] then none
    else
      let expPart : ℤ := match rest2 with
        | e :: r =>
          if e = 'e' ∨ e = 'E' then
            let esign : Bool := match r with
              | '-' :: _ => true
              | _ => false
            let r2 := match r with
              | '-' :: rr => rr
              | '+' :: rr => rr
              | _ => r
            let eds := r2.takeWhile Char.isDigit
            if eds = [] then 0
            else if esign then -(digitsToNat eds : ℤ) else (digitsToNat eds : ℤ)
          else 0
        | [] => 0
      let baseNum : ℤ :=
        (digitsToNat intDigits * 10 ^ fracDigits.length + digitsToNat fracDigits : ℕ)
      let signedNum : ℤ := if sign then -baseNum else baseNum
      let q : ℚ := match expPart with
        | Int.ofNat e => mkRat (signedNum * 10 ^ e) (10 ^ fracDigits.length)
        | Int.negSucc e => mkRat signedNum (10 ^ fracDigits.length * 10 ^ (e + 1))
      some (JSNum.finite q)

/-- Model of JavaScript parseInt with radix 10: skip leading
whitespace, optional sign, then a decimal digit prefix; `none` models
a NaN result. -/
def parseIntJS (s : String) : Option ℤ :=
  let cs0 := s.data.dropWhile Char.isWhitespace
  let sign : Bool := match cs0 with
    | '-' :: _ => true
    | _ => false
  let cs := match cs0 with
    | '-' :: rest => rest
    | '+' :: rest => rest
    | _ => cs0
  let ds := cs.takeWhile Char.isDigit
  if ds = [] then none
  else if sign then some (-(digitsToNat ds : ℤ)) else some (digitsToNat ds : ℤ)

/-- Record parsed from one CSV row (interface MichelinRestaurant in
fetchMichelin.ts).  Every field is optional here because the source
builds the record incrementally as a Partial and only checks the
required fields (Name, Latitude, Longitude) before keeping it. -/
structure MichelinRestaurant where
  Name : Option String := none
  Address : Option String := none
  Location : Option String := none
  Price : Option String := none
  Cuisine : Option String := none
  Longitude : Option JSNum := none
  Latitude : Option JSNum := none
  PhoneNumber : Option String := none
  Url : Option String := none
  WebsiteUrl : Option String := none
  Award : Option String := none
  GreenStar : Option ℤ := none
  FacilitiesAndServices : Option String := none
  Description : Option String := none
deriving DecidableEq, Repr

/-- Scanner state machine of parseCSVLine: one character at a time,
with the in-quotes flag and the accumulated current field.  A quote
inside quotes followed by another quote emits one literal quote and
consumes both; any other quote toggles the flag; a comma outside
quotes ends the field. -/
def parseCSVLineAux : Bool → String → List Char → List String
  | _, current, [] => [current]
  | true, current, '"' :: '"' :: rest =>
    parseCSVLineAux true (current.push '"') rest
  | inQuotes, current, '"' :: rest =>
    parseCSVLineAux (!inQuotes) current rest
  | inQuotes, current, ',' :: rest =>
    if inQuotes then parseCSVLineAux inQuotes (current.push ',') rest
    else current :: parseCSVLineAux false "" rest
  | inQuotes, current, c :: rest =>
    parseCSVLineAux inQuotes (current.push c) rest

/-- Model of parseCSVLine in fetchMichelin.ts: tokenize a line with
the quote-aware scanner, then trim every resulting field. -/
def parseCSVLine (line : String) : List String :=
  (parseCSVLineAux false "" line.data).map jsTrim

/-- Value of the row token at a column index, as the source reads it:
`values[index]?.trim() || ''` followed by `rawValue || undefined`.  An
out-of-range index or a field that trims to the empty string is
absent. -/
def valueAt (values : List String) (i : ℕ) : Option String :=
  match values[i]? with
  | some s => if jsTrim s = "" then none else some (jsTrim s)
  | none => none

/-- Assignment guard for the Longitude and Latitude cases of the
switch: parse the value as a float and overwrite only when the parse
is not NaN, keeping the previous field value otherwise. -/
def updateNum (old : Option JSNum) (value : Option String) : Option JSNum :=
  match value.bind parseFloatJS with
  | some n => some n
  | none => old

/-- Assignment guard for the GreenStar case of the switch: parse the
value as an integer and overwrite only when the parse is not NaN. -/
def updateInt (old : Option ℤ) (value : Option String) : Option ℤ :=
  match value.bind parseIntJS with
  | some n => some n
  | none => old

/-- One iteration of the `headers.forEach` loop body in parseCSV: the
switch on the header name.  Longitude, Latitude and GreenStar assign
only on a successful numeric parse; every other recognized header
assigns the (possibly absent) trimmed value unconditionally; an
unrecognized header writes a property this record type never reads. -/
def applyHeader (r : MichelinRestaurant) (header : String)
    (value : Option String) : MichelinRestaurant :=
  if header = "Longitude" then { r with Longitude := updateNum r.Longitude value }
  else if header = "Latitude" then { r with Latitude := updateNum r.Latitude value }
  else if header = "GreenStar" then { r with GreenStar := updateInt r.GreenStar value }
  else if header = "Name" then { r with Name := value }
  else if header = "Address" then { r with Address := value }
  else if header = "Location" then { r with Location := value }
  else if header = "Price" then { r with Price := value }
  else if header = "Cuisine" then { r with Cuisine := value }
  else if header = "PhoneNumber" then { r with PhoneNumber := value }
  else if header = "Url" then { r with Url := value }
  else if header = "WebsiteUrl" then { r with WebsiteUrl := value }
  else if header = "Award" then { r with Award := value }
  else if header = "FacilitiesAndServices" then { r with FacilitiesAndServices := value }
  else if header = "Description" then { r with Description := value }
  else r

/-- Fold of the `headers.forEach((header, index) => ...)` loop,
carrying the running column index. -/
def buildFrom (r : MichelinRestaurant) (headers values : List String)
    (i : ℕ) : MichelinRestaurant :=
  match headers with
  | [] => r
  | h :: hs => buildFrom (applyHeader r h (valueAt values i)) hs values (i + 1)

/-- Record built from one data row given the header list. -/
def buildRecord (headers values : List String) : MichelinRestaurant :=
  buildFrom {} headers values 0

/-- Required-field check before a row is kept: Name truthy and both
coordinates assigned (the source additionally re-checks `!isNaN`, but
a NaN is never assigned in the first place). -/
def retainedCheck (r : MichelinRestaurant) : Bool :=
  r.Name.getD "" ≠ "" && r.Latitude.isSome && r.Longitude.isSome

/-- Body of the data-row loop of parseCSV: tokenize the line, skip it
when there is no first token or the first token is empty, build the
record, and keep it only when the required fields are present. -/
def parseRow (headers : List String) (line : String) :
    Option MichelinRestaurant :=
  let values := parseCSVLine line
  match values with
  | [] => none
  | v0 :: _ =>
    if v0 = "" then none
    else
      let r := buildRecord headers values
      if retainedCheck r then some r else none

/-- Line splitting of parseCSV: split on newline and keep the lines
whose trimmed text is nonempty. -/
def csvLines (csvText : String) : List String :=
  (splitOnChar '\n' csvText).filter (fun line => jsTrim line ≠ "")

/-- Model of parseCSV in fetchMichelin.ts. -/
def parseCSV (csvText : String) : List MichelinRestaurant :=
  let lines := csvLines csvText
  if lines.length < 2 then []
  else
    let headers := parseCSVLine (lines.headD "")
    (lines.drop 1).filterMap (parseRow headers)

/-- Coordinate pair handed to the distance engine (interface
Coordinates in fetchMichelin.ts).  The trigonometric computation is
modelled over the real numbers. -/
structure Coordinates where
  lat : ℝ
  lng : ℝ

/-- Degrees to radians, as in the toRad helper. -/
noncomputable def toRad (degrees : ℝ) : ℝ :=
  degrees * (Real.pi / 180)

/-- Two-argument arctangent with the JavaScript Math.atan2 sign
conventions on the four half-axes and quadrants. -/
noncomputable def atan2 (y x : ℝ) : ℝ :=
  if 0 < x then Real.arctan (y / x)
  else if x < 0 then
    if 0 ≤ y then Real.arctan (y / x) + Real.pi
    else Real.arctan (y / x) - Real.pi
  else
    if 0 < y then Real.pi / 2
    else if y < 0 then -(Real.pi / 2)
    else 0

/-- Haversine intermediate term, the `const a` of calculateDistance. -/
noncomputable def haversineTerm (coord1 coord2 : Coordinates) : ℝ :=
  Real.sin (toRad (coord2.lat - coord1.lat) / 2) *
      Real.sin (toRad (coord2.lat - coord1.lat) / 2) +
    Real.sin (toRad (coord2.lng - coord1.lng) / 2) *
        Real.sin (toRad (coord2.lng - coord1.lng) / 2) *
        Real.cos (toRad coord1.lat) * Real.cos (toRad coord2.lat)

/-- Model of calculateDistance in fetchMichelin.ts: Haversine formula
on a sphere of radius 6371 km. -/
noncomputable def calculateDistance (coord1 coord2 : Coordinates) : ℝ :=
  6371 *
    (2 * atan2 (Real.sqrt (haversineTerm coord1 coord2))
      (Real.sqrt (1 - haversineTerm coord1 coord2)))

/-- Located record entering the proximity filter: the coordinate
fields the filter reads, plus the remaining fields of the record,
opaque to the filter, carried through by the object spread. -/
structure LocatedRestaurant where
  Latitude : ℝ
  Longitude : ℝ
  payload : String

/-- Record augmented with the computed distance, as built by the
object spread `{ ...restaurant, distance }`. -/
structure RankedRestaurant where
  restaurant : LocatedRestaurant
  distance : ℝ

/-- Model of filterNearbyMichelinRestaurants in fetchMichelin.ts: map
every record to itself plus its distance to the user location, keep
the ones within the radius (inclusive), and sort ascending by
distance.  The JavaScript sort is stable (ECMAScript 2019), which the
merge sort models. -/
noncomputable def filterNearbyMichelinRestaurants
    (restaurants : List LocatedRestaurant) (userLocation : Coordinates)
    (radiusKm : ℝ) : List RankedRestaurant :=
  ((restaurants.map (fun r =>
      RankedRestaurant.mk r
        (calculateDistance userLocation ⟨r.Latitude, r.Longitude⟩))).filter
    (fun x => decide (x.distance ≤ radiusKm))).mergeSort
    (fun a b => decide (a.distance ≤ b.distance))

/-- Truthiness of an optional JavaScript string: present and
nonempty. -/
def truthy (o : Option String) : Bool :=
  match o with
  | some s => s ≠ ""
  | none => false

/-- JavaScript `a || b` on optional strings: b exactly when a is
falsy (absent or empty). -/
def jsOrS (a b : Option String) : Option String :=
  if truthy a then a else b

/-- Normalized place record as seen by the merge step of
fetchNearbyRestaurants: the two identifier fields the dedup loop
reads, plus the rest of the record, opaque to the merge. -/
structure Place where
  place_id : Option String
  id : Option String
  extra : String
deriving DecidableEq, Repr

/-- Identifier computed by the dedup loop body:
`place.place_id || place.id`, collapsed to `none` when the result is
falsy (the loop then takes its no-stable-id branch). -/
def placeKey (p : Place) : Option String :=
  match jsOrS p.place_id p.id with
  | some s => if s = "" then none else some s
  | none => none

/-- The forEach dedup loop of fetchNearbyRestaurants over the
concatenated result sets, carrying the set of already-seen
identifiers: a record with an unseen identifier is appended and its
identifier marked seen; a record without identifier is appended; a
record with a seen identifier is skipped. -/
def mergeAux : List Place → List String → List Place
  | [], _ => []
  | p :: rest, seen =>
    match placeKey p with
    | some k =>
      if k ∈ seen then mergeAux rest seen
      else p :: mergeAux rest (k :: seen)
    | none => p :: mergeAux rest seen

/-- Merge step of fetchNearbyRestaurants for the all filter: the
restaurant result set followed by the cafe result set, deduplicated
by first-seen identifier. -/
def mergePlaces (restaurants cafes : List Place) : List Place :=
  mergeAux (restaurants ++ cafes) []

/-- Declarative statement of the merge contract, following the words
of the specification: walking the concatenation, a record is skipped
exactly when it has a stable identifier and some record in the part
already processed has the same identifier; otherwise it is appended,
so output order is first-seen order. -/
def specMergeAux (pre : List Place) : List Place → List Place
  | [] => []
  | p :: rest =>
    if (placeKey p).isSome && pre.any (fun q => placeKey q == placeKey p)
    then specMergeAux (pre ++ [p]) rest
    else p :: specMergeAux (pre ++ [p]) rest

/-- Declarative merge over a whole concatenated record list. -/
def specMerge (l : List Place) : List Place :=
  specMergeAux [] l

/-- Raw review fields read by the review-mapping block of mapPlace in
fetchPlaces.ts. -/
structure RawReview where
  relativePublishTimeDescription : Option String
  publishTime : Option String
deriving DecidableEq, Repr

/-- Numeric sort key of a mapped review (the `time` computation of
mapPlace), parametrized by the date parser standing for
`new Date(s).getTime()` in epoch milliseconds, with `none` for an
Invalid Date (NaN).  The result, a JavaScript number, is `none` for
NaN: time starts at 0 and, when the publish timestamp is truthy, is
overwritten with `Math.floor(getTime() / 1000)`, which is NaN when
the date is invalid. -/
def computeTime (dateParse : String → Option ℤ) (review : RawReview) :
    Option ℤ :=
  if truthy review.publishTime then
    match dateParse (review.publishTime.getD "") with
    | some ms => some (Int.fdiv ms 1000)
    | none => none
  else some 0

/-- Relative-time string of a mapped review (the `relativeTime`
computation of mapPlace): the relativePublishTimeDescription of the
source when truthy, otherwise the bucketed day difference computed
from the publish timestamp; an untruthy publish timestamp leaves the
empty string; an invalid date makes every comparison with NaN false
and falls through to the years bucket with a NaN count. -/
def relativeTimeOf (dateParse : String → Option ℤ) (nowMs : ℤ)
    (review : RawReview) : String :=
  let relativeTime := review.relativePublishTimeDescription.getD ""
  if relativeTime = "" ∧ truthy review.publishTime then
    match dateParse (review.publishTime.getD "") with
    | some publishMs =>
      let diffDays := Int.fdiv (nowMs - publishMs) 86400000
      if diffDays = 0 then "Today"
      else if diffDays = 1 then "Yesterday"
      else if diffDays < 7 then toString diffDays ++ " days ago"
      else if diffDays < 30 then toString (Int.fdiv diffDays 7) ++ " weeks ago"
      else if diffDays < 365 then toString (Int.fdiv diffDays 30) ++ " months ago"
      else toString (Int.fdiv diffDays 365) ++ " years ago"
    | none => "NaN years ago"
  else relativeTime

/-- Bucketing rule exactly as the specification states it: day
difference 0 is Today, 1 is Yesterday, below 7 counts days, below 30
counts floored weeks, below 365 counts floored months, otherwise
floored years. -/
def specBucket (d : ℤ) : String :=
  if d = 0 then "Today"
  else if d = 1 then "Yesterday"
  else if d < 7 then toString d ++ " days ago"
  else if d < 30 then toString (Int.fdiv d 7) ++ " weeks ago"
  else if d < 365 then toString (Int.fdiv d 30) ++ " months ago"
  else toString (Int.fdiv d 365) ++ " years ago"

/-- Index of the first column with the given header name. -/
def colIdx (headers : List String) (name : String) : Option ℕ :=
  match headers with
  | [] => none
  | h :: hs => if h = name then some 0 else (colIdx hs name).map (· + 1)

/-- Row-retention condition in the words of the specification, amended
by the behaviour of the source: the first token of the row is
nonempty, the Name column holds a nonempty value, and the Latitude
and Longitude columns both parse to a number that is not NaN. -/
def amendedKeep (headers values : List String) : Bool :=
  values.headD "" ≠ "" &&
  (match colIdx headers "Name" with
   | some j => (valueAt values j).isSome
   | none => false) &&
  (match colIdx headers "Latitude" with
   | some j => ((valueAt values j).bind parseFloatJS).isSome
   | none => false) &&
  (match colIdx headers "Longitude" with
   | some j => ((valueAt values j).bind parseFloatJS).isSome
   | none => false)

lemma parseCSVLineAux_length (inQ : Bool) (cur : String) (cs : List Char) :
    1 ≤ (parseCSVLineAux inQ cur cs).length := by
  induction inQ, cur, cs using parseCSVLineAux.induct <;>
    simp [parseCSVLineAux] <;>
    first
      | assumption
      | (split <;> simp_all)

lemma parseCSVLineAux_inQ_no_quote : ∀ (cs : List Char) (cur : String),
    (∀ c ∈ cs, c ≠ '"') →
    parseCSVLineAux true cur cs = [⟨cur.data ++ cs⟩] := by
  intro cs
  induction cs with
  | nil => intro cur h; simp [parseCSVLineAux]
  | cons c rest ih =>
    intro cur h
    have hc : c ≠ '"' := h c (by simp)
    have hrest : ∀ x ∈ rest, x ≠ '"' := fun x hx => h x (by simp [hx])
    by_cases hcomma : c = ','
    · subst hcomma
      rw [show parseCSVLineAux true cur (',' :: rest) =
        parseCSVLineAux true (cur.push ',') rest from by simp [parseCSVLineAux]]
      rw [ih _ hrest]
      simp [String.push]
    · rw [show parseCSVLineAux true cur (c :: rest) =
        parseCSVLineAux true (cur.push c) rest from by
          simp [parseCSVLineAux, hc, hcomma]]
      rw [ih _ hrest]
      simp [String.push]

lemma parseCSVLineAux_open (cs : List Char) (cur : String)
    (h : ∀ c ∈ cs, c ≠ '"') :
    parseCSVLineAux false cur ('"' :: cs) = [⟨cur.data ++ cs⟩] := by
  rw [show parseCSVLineAux false cur ('"' :: cs) =
    parseCSVLineAux true cur cs from by simp [parseCSVLineAux]]
  exact parseCSVLineAux_inQ_no_quote cs cur h

/-- C9: parseCSVLine is total, returning at least one token on every
input line, and a line opening with a quote that is never terminated
raises no error: the scanner stays in the quoted state to the end of
the line, so the whole remainder, commas included, is accumulated
into the one final token. -/
theorem parseCSVLine_total_unterminated_quote (line s : String)
    (h : ∀ c ∈ s.data, c ≠ '"') :
    1 ≤ (parseCSVLine line).length ∧
      parseCSVLine ("\"" ++ s) = [jsTrim s] := by
  constructor
  · simpa [parseCSVLine] using parseCSVLineAux_length false "" line.data
  · have hd : ("\"" ++ s).data = '"' :: s.data := by
      simp
    simp only [parseCSVLine, hd, parseCSVLineAux_open s.data "" h]
    simp

/-- Witness for C9 at a concrete line and a concrete quote-free
remainder containing commas. -/
theorem parseCSVLine_total_unterminated_quote_w :
    (∀ c ∈ ("a,b, c" : String).data, c ≠ '"') ∧
      (1 ≤ (parseCSVLine "x,y").length ∧
        parseCSVLine ("\"" ++ "a,b, c") = [jsTrim "a,b, c"]) :=
  ⟨by decide, parseCSVLine_total_unterminated_quote "x,y" "a,b, c" (by decide)⟩

/-- C7: parsing the two-row example of the specification yields
exactly two records; the first keeps the comma of its quoted Name and
carries Award 1 Star; the second has an absent (not empty-string)
Award. -/
theorem parseCSV_roundtrip_example :
    parseCSV "Name,Latitude,Longitude,Award\n\"A, B\",1.0,2.0,\"1 Star\"\nC,3.0,4.0," =
      [{ Name := some "A, B", Latitude := some (JSNum.finite 1),
         Longitude := some (JSNum.finite 2), Award := some "1 Star" },
       { Name := some "C", Latitude := some (JSNum.finite 3),
         Longitude := some (JSNum.finite 4) }] := by
  decide

/-- C8: a data row whose first token is empty is dropped by the row
loop of parseCSV, whatever the header list maps the first column
to. -/
theorem parseRow_skips_empty_first_token (headers : List String)
    (line : String) (h : (parseCSVLine line).headD "" = "") :
    parseRow headers line = none := by
  cases hv : parseCSVLine line with
  | nil => simp [parseRow, hv]
  | cons v0 vs =>
    have hv0 : v0 = "" := by simpa [hv] using h
    simp [parseRow, hv, hv0]

/-- Witness for C8: the first column is Award, the Name column (second
position) holds Bob and both coordinates are valid, yet the row is
dropped because its first token is empty. -/
theorem parseRow_skips_empty_first_token_w :
    (parseCSVLine ",Bob,1.0,2.0").headD "" = "" ∧
      parseRow ["Award", "Name", "Latitude", "Longitude"] ",Bob,1.0,2.0" = none :=
  ⟨by decide, parseRow_skips_empty_first_token _ _ (by decide)⟩

lemma valueAt_take (values : List String) (i n : ℕ) (h : i < n) :
    valueAt (values.take n) i = valueAt values i := by
  simp [valueAt, List.getElem?_take_of_lt h]

lemma valueAt_pad (values : List String) (k i : ℕ) :
    valueAt (values ++ List.replicate k "") i = valueAt values i := by
  by_cases h : i < values.length
  · simp [valueAt, List.getElem?_append_left h]
  · have h1 : values[i]? = none := by
      rw [List.getElem?_eq_none_iff]
      omega
    have h2 : (values ++ List.replicate k "")[i]? =
        (List.replicate k "")[i - values.length]? := by
      rw [List.getElem?_append_right (by omega)]
    rcases h3 : (List.replicate k "")[i - values.length]? with _ | s
    · simp [valueAt, h1, h2, h3]
    · have hs : s = "" := List.eq_of_mem_replicate (List.getElem?_mem h3)
      simp [valueAt, h1, h2, h3, hs, jsTrim]

lemma buildFrom_take (values : List String) : ∀ (headers : List String)
    (r : MichelinRestaurant) (i n : ℕ), i + headers.length ≤ n →
    buildFrom r headers (values.take n) i = buildFrom r headers values i := by
  intro headers
  induction headers with
  | nil => intro r i n h; rfl
  | cons hd hs ih =>
    intro r i n h
    simp only [buildFrom]
    rw [valueAt_take values i n (by simp at h; omega)]
    exact ih _ (i + 1) n (by simp at h ⊢; omega)

lemma buildFrom_pad (values : List String) (k : ℕ) : ∀ (headers : List String)
    (r : MichelinRestaurant) (i : ℕ),
    buildFrom r headers (values ++ List.replicate k "") i =
      buildFrom r headers values i := by
  intro headers
  induction headers with
  | nil => intro r i; rfl
  | cons hd hs ih =>
    intro r i
    simp only [buildFrom, valueAt_pad]
    exact ih _ (i + 1)

/-- C10: a row-to-record build never mis-assigns on a column-count
mismatch: tokens beyond the last header column are ignored (the build
only reads the first header-count tokens), and columns beyond the last
token behave exactly like empty fields, which are absent; reading any
index at or past the end of the token list is absent. -/
theorem buildRecord_column_mismatch (headers values : List String) (k : ℕ) :
    buildRecord headers values = buildRecord headers (values.take headers.length) ∧
      buildRecord headers (values ++ List.replicate k "") = buildRecord headers values ∧
      valueAt values (values.length + k) = none := by
  refine ⟨?_, ?_, ?_⟩
  · exact (buildFrom_take values headers {} 0 headers.length (by omega)).symm
  · exact buildFrom_pad values k headers {} 0
  · have : values[values.length + k]? = none := by
      rw [List.getElem?_eq_none_iff]
      omega
    simp [valueAt, this]

lemma mergeAux_eq_specMergeAux : ∀ (l : List Place) (seen : List String)
    (pre : List Place),
    (∀ k : String, k ∈ seen ↔ ∃ q ∈ pre, placeKey q = some k) →
    mergeAux l seen = specMergeAux pre l := by
  intro l
  induction l with
  | nil => intro seen pre h; rfl
  | cons p rest ih =>
    intro seen pre h
    cases hk : placeKey p with
    | none =>
      have h1 : mergeAux (p :: rest) seen = p :: mergeAux rest seen := by
        simp [mergeAux, hk]
      have h2 : specMergeAux pre (p :: rest) =
          p :: specMergeAux (pre ++ [p]) rest := by
        simp [specMergeAux, hk]
      rw [h1, h2]
      refine congrArg _ (ih seen (pre ++ [p]) ?_)
      intro k1
      rw [h k1]
      constructor
      · rintro ⟨q, hq, hqk⟩
        exact ⟨q, by simp [hq], hqk⟩
      · rintro ⟨q, hq, hqk⟩
        rcases List.mem_append.mp hq with hq | hq
        · exact ⟨q, hq, hqk⟩
        · rw [List.mem_singleton.mp hq] at hqk
          rw [hk] at hqk
          cases hqk
    | some k0 =>
      by_cases hmem : k0 ∈ seen
      · have hany : (pre.any fun q => placeKey q == placeKey p) = true := by
          obtain ⟨q, hq, hqk⟩ := (h k0).mp hmem
          exact List.any_eq_true.mpr ⟨q, hq, by simp [hqk, hk]⟩
        have h1 : mergeAux (p :: rest) seen = mergeAux rest seen := by
          simp [mergeAux, hk, hmem]
        have h2 : specMergeAux pre (p :: rest) =
            specMergeAux (pre ++ [p]) rest := by
          simp only [hk] at hany
          simp only [specMergeAux, hk, Option.isSome_some, Bool.true_and]
          rw [hany]
          simp
        rw [h1, h2]
        refine ih seen (pre ++ [p]) ?_
        intro k1
        constructor
        · intro hk1
          obtain ⟨q, hq, hqk⟩ := (h k1).mp hk1
          exact ⟨q, by simp [hq], hqk⟩
        · rintro ⟨q, hq, hqk⟩
          rcases List.mem_append.mp hq with hq | hq
          · exact (h k1).mpr ⟨q, hq, hqk⟩
          · rw [List.mem_singleton.mp hq] at hqk
            rw [hk] at hqk
            cases hqk
            exact hmem
      · have hany : (pre.any fun q => placeKey q == placeKey p) = false := by
          rw [Bool.eq_false_iff]
          intro hc
          obtain ⟨q, hq, hqk⟩ := List.any_eq_true.mp hc
          rw [hk] at hqk
          exact hmem ((h k0).mpr ⟨q, hq, by simpa using hqk⟩)
        have h1 : mergeAux (p :: rest) seen =
            p :: mergeAux rest (k0 :: seen) := by
          simp [mergeAux, hk, hmem]
        have h2 : specMergeAux pre (p :: rest) =
            p :: specMergeAux (pre ++ [p]) rest := by
          simp only [hk] at hany
          simp only [specMergeAux, hk, Option.isSome_some, Bool.true_and]
          rw [hany]
          simp
        rw [h1, h2]
        refine congrArg _ (ih (k0 :: seen) (pre ++ [p]) ?_)
        intro k1
        constructor
        · intro hk1
          rcases List.mem_cons.mp hk1 with rfl | hk1
          · exact ⟨p, by simp, hk⟩
          · obtain ⟨q, hq, hqk⟩ := (h k1).mp hk1
            exact ⟨q, by simp [hq], hqk⟩
        · rintro ⟨q, hq, hqk⟩
          rcases List.mem_append.mp hq with hq | hq
          · exact List.mem_cons.mpr (Or.inr ((h k1).mpr ⟨q, hq, hqk⟩))
          · rw [List.mem_singleton.mp hq] at hqk
            rw [hk] at hqk
            cases hqk
            exact List.mem_cons.mpr (Or.inl rfl)

/-- C3: the merge step equals the declarative first-seen merge over
the concatenation of the result sets, and on the example of the
specification the sets A = id 1, id 2 and B = id 2, id 3 merge to
ids 1, 2, 3 keeping the record of the first set for the duplicate
identifier. -/
theorem mergePlaces_firstSeen (A B : List Place) :
    mergePlaces A B = specMerge (A ++ B) ∧
      mergePlaces [⟨some "1", none, "a1"⟩, ⟨some "2", none, "a2"⟩]
          [⟨some "2", none, "b2"⟩, ⟨some "3", none, "b3"⟩] =
        [⟨some "1", none, "a1"⟩, ⟨some "2", none, "a2"⟩,
          ⟨some "3", none, "b3"⟩] :=
  ⟨mergeAux_eq_specMergeAux (A ++ B) [] [] (by simp), by decide⟩

lemma haversineTerm_symm (a b : Coordinates) :
    haversineTerm a b = haversineTerm b a := by
  have key : ∀ u v : ℝ,
      Real.sin ((u - v) * (Real.pi / 180) / 2) *
          Real.sin ((u - v) * (Real.pi / 180) / 2) =
        Real.sin ((v - u) * (Real.pi / 180) / 2) *
          Real.sin ((v - u) * (Real.pi / 180) / 2) := by
    intro u v
    rw [show (u - v) * (Real.pi / 180) / 2 =
      -((v - u) * (Real.pi / 180) / 2) from by ring, Real.sin_neg]
    ring
  unfold haversineTerm toRad
  rw [key b.lat a.lat, key b.lng a.lng]
  ring

lemma atan2_nonneg (y x : ℝ) (hy : 0 ≤ y) : 0 ≤ atan2 y x := by
  unfold atan2
  by_cases h1 : 0 < x
  · rw [if_pos h1]
    have h := Real.arctan_strictMono.monotone
      (div_nonneg hy h1.le : (0 : ℝ) ≤ y / x)
    rwa [Real.arctan_zero] at h
  · rw [if_neg h1]
    by_cases h2 : x < 0
    · rw [if_pos h2, if_pos hy]
      linarith [Real.neg_pi_div_two_lt_arctan (y / x), Real.pi_pos]
    · rw [if_neg h2]
      by_cases h4 : 0 < y
      · rw [if_pos h4]
        linarith [Real.pi_pos]
      · rw [if_neg h4, if_neg (by linarith : ¬y < 0)]

lemma calculateDistance_nonneg (a b : Coordinates) :
    0 ≤ calculateDistance a b := by
  unfold calculateDistance
  have h := atan2_nonneg (Real.sqrt (haversineTerm a b))
    (Real.sqrt (1 - haversineTerm a b)) (Real.sqrt_nonneg _)
  nlinarith

lemma calculateDistance_self (a : Coordinates) : calculateDistance a a = 0 := by
  have hterm : haversineTerm a a = 0 := by
    unfold haversineTerm toRad
    simp
  unfold calculateDistance
  rw [hterm, Real.sqrt_zero, show (1 : ℝ) - 0 = 1 from by ring, Real.sqrt_one]
  rw [show atan2 0 1 = 0 from by
    unfold atan2
    rw [if_pos (by norm_num : (0 : ℝ) < 1)]
    simp]
  ring

/-- C6: the Haversine distance of the source is symmetric in its two
coordinate arguments, never negative, and exactly zero (hence zero
within the 1e-6 km tolerance) on identical coordinates. -/
theorem calculateDistance_props (a b : Coordinates) :
    calculateDistance a b = calculateDistance b a ∧
      0 ≤ calculateDistance a b ∧
      calculateDistance a a = 0 ∧
      |calculateDistance a a| ≤ 1e-6 := by
  refine ⟨?_, calculateDistance_nonneg a b, calculateDistance_self a, ?_⟩
  · unfold calculateDistance
    rw [haversineTerm_symm]
  · rw [calculateDistance_self a]
    norm_num

lemma rankedLe_trans : ∀ a b c : RankedRestaurant,
    decide (a.distance ≤ b.distance) = true →
    decide (b.distance ≤ c.distance) = true →
    decide (a.distance ≤ c.distance) = true := by
  intro a b c hab hbc
  simp only [decide_eq_true_eq] at hab hbc ⊢
  exact le_trans hab hbc

lemma rankedLe_total : ∀ a b : RankedRestaurant,
    (decide (a.distance ≤ b.distance) ||
      decide (b.distance ≤ a.distance)) = true := by
  intro a b
  simpa [Bool.or_eq_true, decide_eq_true_eq] using
    le_total a.distance b.distance

/-- C2: the proximity filter returns, as a multiset, exactly the input
records augmented with their distance to the user location whose
distance is within the radius (inclusive); the result is sorted
non-decreasing by distance; and ties at equal distance keep the order
the records had after the map-and-filter pass, which is the original
input order. -/
theorem filterNearbyMichelinRestaurants_spec
    (restaurants : List LocatedRestaurant) (userLocation : Coordinates)
    (radiusKm : ℝ) :
    (filterNearbyMichelinRestaurants restaurants userLocation radiusKm).Perm
        ((restaurants.map (fun r =>
            RankedRestaurant.mk r
              (calculateDistance userLocation ⟨r.Latitude, r.Longitude⟩))).filter
          (fun x => decide (x.distance ≤ radiusKm))) ∧
      (filterNearbyMichelinRestaurants restaurants userLocation radiusKm).Pairwise
        (fun a b => a.distance ≤ b.distance) ∧
      ∀ a b : RankedRestaurant, a.distance = b.distance →
        [a, b].Sublist
          ((restaurants.map (fun r =>
              RankedRestaurant.mk r
                (calculateDistance userLocation ⟨r.Latitude, r.Longitude⟩))).filter
            (fun x => decide (x.distance ≤ radiusKm))) →
        [a, b].Sublist
          (filterNearbyMichelinRestaurants restaurants userLocation radiusKm) := by
  refine ⟨List.mergeSort_perm _ _, ?_, ?_⟩
  · have h := List.sorted_mergeSort rankedLe_trans rankedLe_total
      ((restaurants.map (fun r =>
          RankedRestaurant.mk r
            (calculateDistance userLocation ⟨r.Latitude, r.Longitude⟩))).filter
        (fun x => decide (x.distance ≤ radiusKm)))
    exact h.imp (fun hab => of_decide_eq_true hab)
  · intro a b hab hsub
    refine List.sublist_mergeSort rankedLe_trans rankedLe_total ?_ hsub
    simp [List.pairwise_cons, hab]

/-- C4 counterexample: a review whose publish timestamp is present but
not parsable as a date gets the NaN sort key (modelled none), not 0 as
the claim states: Math.floor applied to a NaN difference is NaN. -/
theorem computeTime_unparsable_cex :
    computeTime (fun _ => none) ⟨none, some "not-a-date"⟩ = none ∧
      computeTime (fun _ => none) ⟨none, some "not-a-date"⟩ ≠ some 0 := by
  exact ⟨by decide, by decide⟩

/-- C4 (amended): the sort key of a mapped review is the publish
timestamp in epoch milliseconds floor-divided by 1000 when the
timestamp parses, 0 when the timestamp is absent or empty, and NaN
(not 0) when the timestamp is present but unparsable. -/
theorem computeTime_amended (dateParse : String → Option ℤ) (ms : ℤ)
    (s t : String) (hs : s ≠ "") (hp : dateParse s = some ms)
    (ht : t ≠ "") (hpt : dateParse t = none) :
    computeTime dateParse ⟨none, none⟩ = some 0 ∧
      computeTime dateParse ⟨none, some ""⟩ = some 0 ∧
      computeTime dateParse ⟨none, some s⟩ = some (Int.fdiv ms 1000) ∧
      computeTime dateParse ⟨none, some t⟩ = none := by
  refine ⟨rfl, by simp [computeTime, truthy], ?_, ?_⟩
  · simp [computeTime, truthy, hs, hp]
  · simp [computeTime, truthy, ht, hpt]

/-- Witness for C4 at a concrete date parser accepting one timestamp
and rejecting another. -/
theorem computeTime_amended_w :
    ("d1" ≠ "" ∧
      (fun x => if x = "d1" then some (1704067200123 : ℤ) else none) "d1" =
        some 1704067200123 ∧
      "bad" ≠ "" ∧
      (fun x => if x = "d1" then some (1704067200123 : ℤ) else none) "bad" =
        none) ∧
    (computeTime (fun x => if x = "d1" then some (1704067200123 : ℤ) else none)
        ⟨none, none⟩ = some 0 ∧
      computeTime (fun x => if x = "d1" then some (1704067200123 : ℤ) else none)
        ⟨none, some ""⟩ = some 0 ∧
      computeTime (fun x => if x = "d1" then some (1704067200123 : ℤ) else none)
        ⟨none, some "d1"⟩ = some (Int.fdiv 1704067200123 1000) ∧
      computeTime (fun x => if x = "d1" then some (1704067200123 : ℤ) else none)
        ⟨none, some "bad"⟩ = none) :=
  ⟨⟨by decide, by decide, by decide, by decide⟩,
    computeTime_amended _ 1704067200123 "d1" "bad"
      (by decide) (by decide) (by decide) (by decide)⟩

/-- C5: when the source offers a nonempty relative-time description it
is used unchanged; otherwise, for a parsable publish timestamp, the
mapped relative-time string is exactly the bucket of the floored
whole-day difference as the specification words it, and the bucket
function sends 10 days to 1 weeks ago and 400 days to 1 years ago. -/
theorem relativeTimeOf_buckets (dateParse : String → Option ℤ)
    (nowMs pms : ℤ) (s : String) (rt : Option String)
    (hs : s ≠ "") (hp : dateParse s = some pms) :
    relativeTimeOf dateParse nowMs ⟨rt, some s⟩ =
      (if rt.getD "" ≠ "" then rt.getD ""
       else specBucket (Int.fdiv (nowMs - pms) 86400000)) ∧
      specBucket 10 = "1 weeks ago" ∧
      specBucket 400 = "1 years ago" := by
  refine ⟨?_, by decide, by decide⟩
  by_cases hrt : rt.getD "" = ""
  · simp [relativeTimeOf, specBucket, hrt, truthy, hs, hp]
  · simp [relativeTimeOf, hrt]

/-- Witness for C5 at a publish timestamp ten days before now with no
source-provided description. -/
theorem relativeTimeOf_buckets_w :
    ("t0" ≠ "" ∧
      (fun x => if x = "t0" then some (0 : ℤ) else none) "t0" = some 0) ∧
    (relativeTimeOf (fun x => if x = "t0" then some (0 : ℤ) else none)
        864000000 ⟨some "", some "t0"⟩ =
      (if (some "" : Option String).getD "" ≠ ""
       then (some "" : Option String).getD ""
       else specBucket (Int.fdiv (864000000 - 0) 86400000)) ∧
      specBucket 10 = "1 weeks ago" ∧
      specBucket 400 = "1 years ago") :=
  ⟨⟨by decide, by decide⟩,
    relativeTimeOf_buckets _ 864000000 0 "t0" (some "") (by decide) (by decide)⟩

lemma applyHeader_Name_self (r : MichelinRestaurant) (v : Option String) :
    (applyHeader r "Name" v).Name = v := by
  rfl

lemma applyHeader_Name_ne (r : MichelinRestaurant) (h : String)
    (v : Option String) (hh : h ≠ "Name") :
    (applyHeader r h v).Name = r.Name := by
  unfold applyHeader
  by_cases h1 : h = "Longitude"
  · rw [if_pos h1]
  · rw [if_neg h1]
    by_cases h2 : h = "Latitude"
    · rw [if_pos h2]
    · rw [if_neg h2]
      by_cases h3 : h = "GreenStar"
      · rw [if_pos h3]
      · rw [if_neg h3]
        by_cases h4 : h = "Name"
        · exact absurd h4 hh
        · rw [if_neg h4]
          by_cases h5 : h = "Address"
          · rw [if_pos h5]
          · rw [if_neg h5]
            by_cases h6 : h = "Location"
            · rw [if_pos h6]
            · rw [if_neg h6]
              by_cases h7 : h = "Price"
              · rw [if_pos h7]
              · rw [if_neg h7]
                by_cases h8 : h = "Cuisine"
                · rw [if_pos h8]
                · rw [if_neg h8]
                  by_cases h9 : h = "PhoneNumber"
                  · rw [if_pos h9]
                  · rw [if_neg h9]
                    by_cases h10 : h = "Url"
                    · rw [if_pos h10]
                    · rw [if_neg h10]
                      by_cases h11 : h = "WebsiteUrl"
                      · rw [if_pos h11]
                      · rw [if_neg h11]
                        by_cases h12 : h = "Award"
                        · rw [if_pos h12]
                        · rw [if_neg h12]
                          by_cases h13 : h = "FacilitiesAndServices"
                          · rw [if_pos h13]
                          · rw [if_neg h13]
                            by_cases h14 : h = "Description"
                            · rw [if_pos h14]
                            · rw [if_neg h14]

lemma applyHeader_Latitude_self (r : MichelinRestaurant) (v : Option String) :
    (applyHeader r "Latitude" v).Latitude = updateNum r.Latitude v := by
  rfl

lemma applyHeader_Latitude_ne (r : MichelinRestaurant) (h : String)
    (v : Option String) (hh : h ≠ "Latitude") :
    (applyHeader r h v).Latitude = r.Latitude := by
  unfold applyHeader
  by_cases h1 : h = "Longitude"
  · rw [if_pos h1]
  · rw [if_neg h1]
    by_cases h2 : h = "Latitude"
    · exact absurd h2 hh
    · rw [if_neg h2]
      by_cases h3 : h = "GreenStar"
      · rw [if_pos h3]
      · rw [if_neg h3]
        by_cases h4 : h = "Name"
        · rw [if_pos h4]
        · rw [if_neg h4]
          by_cases h5 : h = "Address"
          · rw [if_pos h5]
          · rw [if_neg h5]
            by_cases h6 : h = "Location"
            · rw [if_pos h6]
            · rw [if_neg h6]
              by_cases h7 : h = "Price"
              · rw [if_pos h7]
              · rw [if_neg h7]
                by_cases h8 : h = "Cuisine"
                · rw [if_pos h8]
                · rw [if_neg h8]
                  by_cases h9 : h = "PhoneNumber"
                  · rw [if_pos h9]
                  · rw [if_neg h9]
                    by_cases h10 : h = "Url"
                    · rw [if_pos h10]
                    · rw [if_neg h10]
                      by_cases h11 : h = "WebsiteUrl"
                      · rw [if_pos h11]
                      · rw [if_neg h11]
                        by_cases h12 : h = "Award"
                        · rw [if_pos h12]
                        · rw [if_neg h12]
                          by_cases h13 : h = "FacilitiesAndServices"
                          · rw [if_pos h13]
                          · rw [if_neg h13]
                            by_cases h14 : h = "Description"
                            · rw [if_pos h14]
                            · rw [if_neg h14]

lemma applyHeader_Longitude_self (r : MichelinRestaurant) (v : Option String) :
    (applyHeader r "Longitude" v).Longitude = updateNum r.Longitude v := by
  rfl

lemma applyHeader_Longitude_ne (r : MichelinRestaurant) (h : String)
    (v : Option String) (hh : h ≠ "Longitude") :
    (applyHeader r h v).Longitude = r.Longitude := by
  unfold applyHeader
  by_cases h1 : h = "Longitude"
  · exact absurd h1 hh
  · rw [if_neg h1]
    by_cases h2 : h = "Latitude"
    · rw [if_pos h2]
    · rw [if_neg h2]
      by_cases h3 : h = "GreenStar"
      · rw [if_pos h3]
      · rw [if_neg h3]
        by_cases h4 : h = "Name"
        · rw [if_pos h4]
        · rw [if_neg h4]
          by_cases h5 : h = "Address"
          · rw [if_pos h5]
          · rw [if_neg h5]
            by_cases h6 : h = "Location"
            · rw [if_pos h6]
            · rw [if_neg h6]
              by_cases h7 : h = "Price"
              · rw [if_pos h7]
              · rw [if_neg h7]
                by_cases h8 : h = "Cuisine"
                · rw [if_pos h8]
                · rw [if_neg h8]
                  by_cases h9 : h = "PhoneNumber"
                  · rw [if_pos h9]
                  · rw [if_neg h9]
                    by_cases h10 : h = "Url"
                    · rw [if_pos h10]
                    · rw [if_neg h10]
                      by_cases h11 : h = "WebsiteUrl"
                      · rw [if_pos h11]
                      · rw [if_neg h11]
                        by_cases h12 : h = "Award"
                        · rw [if_pos h12]
                        · rw [if_neg h12]
                          by_cases h13 : h = "FacilitiesAndServices"
                          · rw [if_pos h13]
                          · rw [if_neg h13]
                            by_cases h14 : h = "Description"
                            · rw [if_pos h14]
                            · rw [if_neg h14]

lemma colIdx_eq_none (name : String) : ∀ (headers : List String),
    name ∉ headers → colIdx headers name = none := by
  intro headers
  induction headers with
  | nil => intro h; rfl
  | cons hd hs ih =>
    intro h
    have h1 : hd ≠ name := fun he => h (by simp [he])
    have h2 : name ∉ hs := fun he => h (by simp [he])
    simp [colIdx, h1, ih h2]

lemma buildFrom_Name (values : List String) : ∀ (headers : List String)
    (r : MichelinRestaurant) (i : ℕ), headers.Nodup →
    (buildFrom r headers values i).Name =
      (match colIdx headers "Name" with
       | some j => valueAt values (i + j)
       | none => r.Name) := by
  intro headers
  induction headers with
  | nil => intro r i h; rfl
  | cons hd hs ih =>
    intro r i hnd
    obtain ⟨hmem, hnd2⟩ := List.nodup_cons.mp hnd
    simp only [buildFrom]
    rw [ih _ (i + 1) hnd2]
    by_cases hh : hd = "Name"
    · subst hh
      rw [colIdx_eq_none "Name" hs hmem]
      have hc0 : colIdx ("Name" :: hs) "Name" = some 0 := by simp [colIdx]
      rw [hc0]
      show (applyHeader r "Name" (valueAt values i)).Name =
        valueAt values (i + 0)
      rw [applyHeader_Name_self, Nat.add_zero]
    · have hc : colIdx (hd :: hs) "Name" = (colIdx hs "Name").map (· + 1) := by
        simp [colIdx, hh]
      rw [hc]
      cases hj : colIdx hs "Name" with
      | none =>
        show (applyHeader r hd (valueAt values i)).Name = r.Name
        exact applyHeader_Name_ne r hd _ hh
      | some j =>
        show valueAt values (i + 1 + j) = valueAt values (i + (j + 1))
        rw [show i + 1 + j = i + (j + 1) from by omega]

lemma buildFrom_Latitude (values : List String) : ∀ (headers : List String)
    (r : MichelinRestaurant) (i : ℕ), headers.Nodup →
    (buildFrom r headers values i).Latitude =
      (match colIdx headers "Latitude" with
       | some j => updateNum r.Latitude (valueAt values (i + j))
       | none => r.Latitude) := by
  intro headers
  induction headers with
  | nil => intro r i h; rfl
  | cons hd hs ih =>
    intro r i hnd
    obtain ⟨hmem, hnd2⟩ := List.nodup_cons.mp hnd
    simp only [buildFrom]
    rw [ih _ (i + 1) hnd2]
    by_cases hh : hd = "Latitude"
    · subst hh
      rw [colIdx_eq_none "Latitude" hs hmem]
      have hc0 : colIdx ("Latitude" :: hs) "Latitude" = some 0 := by
        simp [colIdx]
      rw [hc0]
      show (applyHeader r "Latitude" (valueAt values i)).Latitude =
        updateNum r.Latitude (valueAt values (i + 0))
      rw [applyHeader_Latitude_self, Nat.add_zero]
    · have hc : colIdx (hd :: hs) "Latitude" =
          (colIdx hs "Latitude").map (· + 1) := by
        simp [colIdx, hh]
      rw [hc]
      cases hj : colIdx hs "Latitude" with
      | none =>
        show (applyHeader r hd (valueAt values i)).Latitude = r.Latitude
        exact applyHeader_Latitude_ne r hd _ hh
      | some j =>
        show updateNum (applyHeader r hd (valueAt values i)).Latitude
            (valueAt values (i + 1 + j)) =
          updateNum r.Latitude (valueAt values (i + (j + 1)))
        rw [show i + 1 + j = i + (j + 1) from by omega,
          applyHeader_Latitude_ne r hd _ hh]

lemma buildFrom_Longitude (values : List String) : ∀ (headers : List String)
    (r : MichelinRestaurant) (i : ℕ), headers.Nodup →
    (buildFrom r headers values i).Longitude =
      (match colIdx headers "Longitude" with
       | some j => updateNum r.Longitude (valueAt values (i + j))
       | none => r.Longitude) := by
  intro headers
  induction headers with
  | nil => intro r i h; rfl
  | cons hd hs ih =>
    intro r i hnd
    obtain ⟨hmem, hnd2⟩ := List.nodup_cons.mp hnd
    simp only [buildFrom]
    rw [ih _ (i + 1) hnd2]
    by_cases hh : hd = "Longitude"
    · subst hh
      rw [colIdx_eq_none "Longitude" hs hmem]
      have hc0 : colIdx ("Longitude" :: hs) "Longitude" = some 0 := by
        simp [colIdx]
      rw [hc0]
      show (applyHeader r "Longitude" (valueAt values i)).Longitude =
        updateNum r.Longitude (valueAt values (i + 0))
      rw [applyHeader_Longitude_self, Nat.add_zero]
    · have hc : colIdx (hd :: hs) "Longitude" =
          (colIdx hs "Longitude").map (· + 1) := by
        simp [colIdx, hh]
      rw [hc]
      cases hj : colIdx hs "Longitude" with
      | none =>
        show (applyHeader r hd (valueAt values i)).Longitude = r.Longitude
        exact applyHeader_Longitude_ne r hd _ hh
      | some j =>
        show updateNum (applyHeader r hd (valueAt values i)).Longitude
            (valueAt values (i + 1 + j)) =
          updateNum r.Longitude (valueAt values (i + (j + 1)))
        rw [show i + 1 + j = i + (j + 1) from by omega,
          applyHeader_Longitude_ne r hd _ hh]

lemma valueAt_some_ne (values : List String) (i : ℕ) (s : String)
    (h : valueAt values i = some s) : s ≠ "" := by
  unfold valueAt at h
  rcases hv : values[i]? with _ | t
  · rw [hv] at h
    cases h
  · rw [hv] at h
    have h2 : (if jsTrim t = "" then (none : Option String)
        else some (jsTrim t)) = some s := h
    by_cases ht : jsTrim t = ""
    · rw [if_pos ht] at h2
      cases h2
    · rw [if_neg ht] at h2
      cases h2
      exact ht

lemma updateNum_none (v : Option String) :
    updateNum none v = v.bind parseFloatJS := by
  unfold updateNum
  cases hb : v.bind parseFloatJS <;> rfl

lemma retainedCheck_buildRecord (headers values : List String)
    (hnd : headers.Nodup) :
    retainedCheck (buildRecord headers values) =
      ((match colIdx headers "Name" with
        | some j => (valueAt values j).isSome
        | none => false) &&
       (match colIdx headers "Latitude" with
        | some j => ((valueAt values j).bind parseFloatJS).isSome
        | none => false) &&
       (match colIdx headers "Longitude" with
        | some j => ((valueAt values j).bind parseFloatJS).isSome
        | none => false)) := by
  unfold retainedCheck buildRecord
  rw [buildFrom_Name values headers {} 0 hnd,
    buildFrom_Latitude values headers {} 0 hnd,
    buildFrom_Longitude values headers {} 0 hnd]
  have hname : ((match colIdx headers "Name" with
      | some j => valueAt values (0 + j)
      | none => ({} : MichelinRestaurant).Name).getD "" ≠ "" : Bool) =
      (match colIdx headers "Name" with
       | some j => (valueAt values j).isSome
       | none => false) := by
    cases hc : colIdx headers "Name" with
    | none => rfl
    | some j =>
      simp only [Nat.zero_add]
      cases hv : valueAt values j with
      | none => rfl
      | some s => simp [valueAt_some_ne values j s hv]
  have hlat : (match colIdx headers "Latitude" with
      | some j => updateNum ({} : MichelinRestaurant).Latitude
          (valueAt values (0 + j))
      | none => ({} : MichelinRestaurant).Latitude).isSome =
      (match colIdx headers "Latitude" with
       | some j => ((valueAt values j).bind parseFloatJS).isSome
       | none => false) := by
    cases hc : colIdx headers "Latitude" with
    | none => rfl
    | some j =>
      show (updateNum none (valueAt values (0 + j))).isSome = _
      rw [updateNum_none]
      simp
  have hlon : (match colIdx headers "Longitude" with
      | some j => updateNum ({} : MichelinRestaurant).Longitude
          (valueAt values (0 + j))
      | none => ({} : MichelinRestaurant).Longitude).isSome =
      (match colIdx headers "Longitude" with
       | some j => ((valueAt values j).bind parseFloatJS).isSome
       | none => false) := by
    cases hc : colIdx headers "Longitude" with
    | none => rfl
    | some j =>
      show (updateNum none (valueAt values (0 + j))).isSome = _
      rw [updateNum_none]
      simp
  rw [hname, hlat, hlon]

lemma parseRow_eq (headers : List String) (line : String)
    (hnd : headers.Nodup) :
    parseRow headers line =
      (if amendedKeep headers (parseCSVLine line)
       then some (buildRecord headers (parseCSVLine line)) else none) := by
  cases hv : parseCSVLine line with
  | nil => simp [parseRow, hv, amendedKeep]
  | cons v0 vs =>
    by_cases h0 : v0 = ""
    · subst h0
      simp [parseRow, hv, amendedKeep]
    · have hkeep : amendedKeep headers (v0 :: vs) =
          retainedCheck (buildRecord headers (v0 :: vs)) := by
        rw [retainedCheck_buildRecord headers (v0 :: vs) hnd]
        simp [amendedKeep, h0, Bool.and_assoc]
      simp only [parseRow, hv, h0, if_neg, hkeep]
      split <;> simp_all

/-- C1 (amended): with duplicate-free headers, parseCSV keeps exactly
the data rows whose first token is nonempty, whose Name column holds a
nonempty value, and whose Latitude and Longitude columns both parse to
a non-NaN number (an infinite value is accepted, since the source only
rejects NaN); each kept row maps to the record built from its
tokens. -/
theorem parseCSV_retention (csvText : String)
    (hnd : (parseCSVLine ((csvLines csvText).headD "")).Nodup) :
    parseCSV csvText =
      (if (csvLines csvText).length < 2 then []
       else ((csvLines csvText).drop 1).filterMap (fun line =>
         if amendedKeep (parseCSVLine ((csvLines csvText).headD ""))
             (parseCSVLine line)
         then some (buildRecord (parseCSVLine ((csvLines csvText).headD ""))
           (parseCSVLine line))
         else none)) := by
  simp only [parseCSV]
  by_cases hlen : (csvLines csvText).length < 2
  · simp [hlen]
  · simp only [hlen, if_false]
    congr 1
    funext line
    exact parseRow_eq _ line hnd

/-- Witness for C1 at a concrete CSV text with duplicate-free headers:
the first data row is kept, the second is dropped for its empty first
token. -/
theorem parseCSV_retention_w :
    (parseCSVLine ((csvLines "Name,Latitude,Longitude\nA,1,2\n,3,4").headD "")).Nodup ∧
      parseCSV "Name,Latitude,Longitude\nA,1,2\n,3,4" =
        (if (csvLines "Name,Latitude,Longitude\nA,1,2\n,3,4").length < 2 then []
         else ((csvLines "Name,Latitude,Longitude\nA,1,2\n,3,4").drop 1).filterMap
           (fun line =>
             if amendedKeep
                 (parseCSVLine
                   ((csvLines "Name,Latitude,Longitude\nA,1,2\n,3,4").headD ""))
                 (parseCSVLine line)
             then some (buildRecord
               (parseCSVLine
                 ((csvLines "Name,Latitude,Longitude\nA,1,2\n,3,4").headD ""))
               (parseCSVLine line))
             else none)) :=
  ⟨by decide, parseCSV_retention _ (by decide)⟩

/-- C1 counterexample: in a CSV whose first column is Award and whose
Name column is second, the row with an empty Award cell is dropped by
parseCSV even though its Name value Bob is nonempty and both
coordinates parse to finite numbers, refuting the claimed equivalence
of retention with the Name-and-coordinates condition alone. -/
theorem parseCSV_retention_cex :
    parseCSV "Award,Name,Latitude,Longitude\n,Bob,1.0,2.0" = [] ∧
      parseCSVLine "Award,Name,Latitude,Longitude" =
        ["Award", "Name", "Latitude", "Longitude"] ∧
      valueAt (parseCSVLine ",Bob,1.0,2.0") 1 = some "Bob" ∧
      (valueAt (parseCSVLine ",Bob,1.0,2.0") 2).bind parseFloatJS =
        some (JSNum.finite 1) ∧
      (valueAt (parseCSVLine ",Bob,1.0,2.0") 3).bind parseFloatJS =
        some (JSNum.finite 2) ∧
      parseCSV "Name,Latitude,Longitude\nX,Infinity,2" =
        [{ Name := some "X", Latitude := some JSNum.posInf,
           Longitude := some (JSNum.finite 2) }] := by
  exact ⟨by decide, by decide, by decide, by decide, by decide, by decide⟩

end RN
